import Mathlib

/-!
Shallow embedding of `src/lisp.cpp`: a tiny lisp reader (`parser::parse`)
and evaluator (`interpreter::eval` with `evalAdd`, `evalSubtract`,
`evalMultiply`, `evalDivide`).

Modelling decisions, each traceable to the C++ source:

* `double` is modelled as `ℚ`.  All claim-relevant facts are either exact
  small integer arithmetic or the distinction between "raises an error"
  and "returns a value", both of which are representation independent.
  (Note that `ℚ` division by zero yields `0` where IEEE doubles yield an
  infinity; no theorem below relies on the numeric value of a division by
  zero, only on the absence of any error path.)
* C++ exceptions (`std::runtime_error`, `std::invalid_argument` from
  `std::stod`) become the `Except Err` monad.  Undefined behaviour
  (out-of-bounds `std::vector::operator[]`, member call through a null
  pointer after a failed `dynamic_cast`) is modelled by the dedicated
  error `Err.ub`.  The `throw std::runtime_error("Unknown expression")`
  fall-through of `interpreter::eval` is unreachable here because `LObj`
  is a closed sum of the three node classes.
* Recursion in the C++ parser and evaluator is modelled with an explicit
  fuel parameter (structural on `Nat`), so that every definition is
  executable by the kernel.  `Err.fuelOut` marks fuel exhaustion; the
  top-level wrappers supply fuel that exceeds the actual recursion depth.
* `std::map<std::string, lisp_object_ptr> globalEnv` is an association
  list `Env`.  `operator[]` on a missing key default-constructs the mapped
  value (a null `shared_ptr`) and inserts it: `eval` on an unregistered
  symbol returns `none` and appends `(name, none)` to the environment,
  exactly as the C++ does.  A null `lisp_object_ptr` is `Option LObj`'s
  `none`.
-/

namespace Lisp

/-- Expression nodes: the closed sum of the three classes `lisp_number`
(`double value`), `lisp_symbol` (`std::string name`) and `lisp_list`
(`std::vector<lisp_object_ptr> elements`). -/
inductive LObj : Type
  | number : ℚ → LObj
  | symbol : String → LObj
  | list : List LObj → LObj

/-- Outcomes of the C++ exception paths and of undefined behaviour. -/
inductive Err : Type
  | unexpectedEndOfInput
  | invalidArgument
  | unknownOperator : String → Err
  | ub
  | fuelOut
deriving DecidableEq

/-- The C++ `input[index]`: for `index < size` the stored character, and
for `index == size` the null character (guaranteed by
`std::string::operator[]` since C++11; larger indices never occur). -/
def currentChar (input : List Char) (idx : Nat) : Char :=
  input.getD idx (Char.ofNat 0)

/-- C `isspace` on the ASCII whitespace characters. -/
def isspace (c : Char) : Bool :=
  c == ' ' || c == '\t' || c == '\n' || c == '\x0b' || c == '\x0c' || c == '\r'

/-- Model of `parser::skipWhitespace`: advance the cursor past the maximal
whitespace run. -/
def skipWhitespace (input : List Char) (idx : Nat) : Nat :=
  idx + ((input.drop idx).takeWhile isspace).length

/-- Value of a decimal digit string. -/
def natOfDigits (ds : List Char) : Nat :=
  ds.foldl (fun a c => 10 * a + (c.toNat - 48)) 0

/-- Value of an integer digit part plus a fractional digit part. -/
def ratOfParts (ip fp : List Char) : ℚ :=
  (natOfDigits ip : ℚ) + (natOfDigits fp : ℚ) / (10 : ℚ) ^ fp.length

/-- Model of `std::stod` as invoked at the single call site of `parser::parse`.
The argument there is a (possibly empty) run of decimal digits and dots,
so only the `strtod` grammar fragment `digit* (. digit*)?` is relevant:
the longest valid leading prefix is converted and the rest is silently
ignored; if no conversion can be performed, `std::invalid_argument` is
thrown. -/
def stod (lex : List Char) : Except Err ℚ :=
  let ip := lex.takeWhile Char.isDigit
  match lex.drop ip.length with
  | '.' :: rest =>
    let fp := rest.takeWhile Char.isDigit
    if ip.isEmpty && fp.isEmpty then .error .invalidArgument
    else .ok (ratOfParts ip fp)
  | _ => if ip.isEmpty then .error .invalidArgument else .ok (ratOfParts ip [])

/-- The `while (currentChar() != ')')` loop of the list branch of
`parser::parse`: repeatedly parse a child with `childP` (which receives
the cursor), skip whitespace, and stop — consuming the `)` — once the
current character is `)`.  `lfuel` bounds the number of iterations. -/
def parseList (childP : Nat → Except Err (LObj × Nat)) (input : List Char) :
    Nat → Nat → List LObj → Except Err (List LObj × Nat)
  | 0, _, _ => .error .fuelOut
  | lfuel + 1, idx, acc =>
    if currentChar input idx == ')' then .ok (acc, idx + 1)
    else
      match childP idx with
      | .error e => .error e
      | .ok (child, idx2) =>
        parseList childP input lfuel (skipWhitespace input idx2) (acc ++ [child])

/-- Model of `parser::parse`: skip whitespace, throw `Unexpected end of input` at
the end of the buffer, then branch on the current character: `(` starts a
list; a digit, or `-` followed by a digit, starts a numeric lexeme (a
maximal run of digits and dots — note the `-` itself is never appended to
the lexeme, exactly as in the C++ loop); anything else starts a symbol
lexeme (a maximal run of characters that are neither whitespace nor `)`).
Returns the node together with the advanced cursor. -/
def parse : Nat → List Char → Nat → Except Err (LObj × Nat)
  | 0, _, _ => .error .fuelOut
  | fuel + 1, input, idx0 =>
    let idx := skipWhitespace input idx0
    if input.length ≤ idx then .error .unexpectedEndOfInput
    else
      let c := currentChar input idx
      if c == '(' then
        match parseList (fun i => parse fuel input i) input (input.length + 1) (idx + 1) [] with
        | .error e => .error e
        | .ok (elems, idx2) => .ok (.list elems, idx2)
      else if c.isDigit || (c == '-' && decide (idx + 1 < input.length)
                              && (currentChar input (idx + 1)).isDigit) then
        let lex := (input.drop idx).takeWhile (fun ch => ch.isDigit || ch == '.')
        match stod lex with
        | .error e => .error e
        | .ok q => .ok (.number q, idx + lex.length)
      else
        let lex := (input.drop idx).takeWhile (fun ch => !(isspace ch) && ch != ')')
        .ok (.symbol (String.mk lex), idx + lex.length)

/-- Type of `interpreter::globalEnv`, an association list standing for the
`std::map`.  Looking up a missing key yields `none`; the caller models
`operator[]`'s insert-on-miss separately (see `eval`). -/
abbrev Env := List (String × Option LObj)

/-- Lookup in the association list (`std::map::find` semantics). -/
def envLookup : Env → String → Option (Option LObj)
  | [], _ => none
  | (k, v) :: rest, key => if k = key then some v else envLookup rest key

/-- Model of `dynamic_cast<lisp_number*>(p.get())->getValue()`: succeeds only on a
number node; on anything else (including a null result of `eval`) the
`getValue` call through the null cast result is undefined behaviour. -/
def asNumber : Option LObj → Except Err ℚ
  | some (.number q) => .ok q
  | _ => .error .ub

/-- The accumulation loop of `interpreter::evalAdd`: `sum += ...` over the
operands, evaluating each with `evalF` and requiring a number. -/
def addLoop (evalF : Env → LObj → Except Err (Option LObj × Env)) :
    Env → ℚ → List LObj → Except Err (ℚ × Env)
  | env, acc, [] => .ok (acc, env)
  | env, acc, a :: rest =>
    match evalF env a with
    | .error e => .error e
    | .ok (v, env2) =>
      match asNumber v with
      | .error e => .error e
      | .ok q => addLoop evalF env2 (acc + q) rest

/-- The loop of `interpreter::evalSubtract`: `result -= ...`. -/
def subLoop (evalF : Env → LObj → Except Err (Option LObj × Env)) :
    Env → ℚ → List LObj → Except Err (ℚ × Env)
  | env, acc, [] => .ok (acc, env)
  | env, acc, a :: rest =>
    match evalF env a with
    | .error e => .error e
    | .ok (v, env2) =>
      match asNumber v with
      | .error e => .error e
      | .ok q => subLoop evalF env2 (acc - q) rest

/-- The loop of `interpreter::evalMultiply`: `product *= ...`. -/
def mulLoop (evalF : Env → LObj → Except Err (Option LObj × Env)) :
    Env → ℚ → List LObj → Except Err (ℚ × Env)
  | env, acc, [] => .ok (acc, env)
  | env, acc, a :: rest =>
    match evalF env a with
    | .error e => .error e
    | .ok (v, env2) =>
      match asNumber v with
      | .error e => .error e
      | .ok q => mulLoop evalF env2 (acc * q) rest

/-- The loop of `interpreter::evalDivide`: `result /= ...`.  There is no
zero test in the source; the division is performed unconditionally. -/
def divLoop (evalF : Env → LObj → Except Err (Option LObj × Env)) :
    Env → ℚ → List LObj → Except Err (ℚ × Env)
  | env, acc, [] => .ok (acc, env)
  | env, acc, a :: rest =>
    match evalF env a with
    | .error e => .error e
    | .ok (v, env2) =>
      match asNumber v with
      | .error e => .error e
      | .ok q => divLoop evalF env2 (acc / q) rest

/-- Model of `interpreter::evalAdd`: `sum` starts at `0`; zero operands therefore
yield `Number 0`. -/
def evalAdd (evalF : Env → LObj → Except Err (Option LObj × Env))
    (env : Env) (args : List LObj) : Except Err (Option LObj × Env) :=
  match addLoop evalF env 0 args with
  | .error e => .error e
  | .ok (s, env2) => .ok (some (.number s), env2)

/-- Model of `interpreter::evalSubtract`: reads `args[0]` first — on an empty
vector this is an out-of-bounds access, i.e. undefined behaviour — then
folds `-=` over the remaining operands. -/
def evalSubtract (evalF : Env → LObj → Except Err (Option LObj × Env))
    (env : Env) (args : List LObj) : Except Err (Option LObj × Env) :=
  match args with
  | [] => .error .ub
  | a :: rest =>
    match evalF env a with
    | .error e => .error e
    | .ok (v, env2) =>
      match asNumber v with
      | .error e => .error e
      | .ok q =>
        match subLoop evalF env2 q rest with
        | .error e => .error e
        | .ok (r, env3) => .ok (some (.number r), env3)

/-- Model of `interpreter::evalMultiply`: `product` starts at `1`; zero operands
therefore yield `Number 1`. -/
def evalMultiply (evalF : Env → LObj → Except Err (Option LObj × Env))
    (env : Env) (args : List LObj) : Except Err (Option LObj × Env) :=
  match mulLoop evalF env 1 args with
  | .error e => .error e
  | .ok (s, env2) => .ok (some (.number s), env2)

/-- Model of `interpreter::evalDivide`: reads `args[0]` first — out of bounds on an
empty vector — then folds `/=` over the remaining operands with no check
of the divisor. -/
def evalDivide (evalF : Env → LObj → Except Err (Option LObj × Env))
    (env : Env) (args : List LObj) : Except Err (Option LObj × Env) :=
  match args with
  | [] => .error .ub
  | a :: rest =>
    match evalF env a with
    | .error e => .error e
    | .ok (v, env2) =>
      match asNumber v with
      | .error e => .error e
      | .ok q =>
        match divLoop evalF env2 q rest with
        | .error e => .error e
        | .ok (r, env3) => .ok (some (.number r), env3)

/-- Model of `interpreter::eval`.  Numbers are self-evaluating.  A symbol is looked
up with `globalEnv[name]`: a hit returns the stored pointer, a miss
default-inserts a null pointer under that name and returns it (the
`std::map::operator[]` behaviour) — note that this both silently yields
"no value" and mutates the environment.  An empty list returns the null
pointer.  A non-empty list dispatches textually on the head, which is
`dynamic_cast` to a symbol — a non-symbol head means a method call through
a null pointer, undefined behaviour.  The result pairs the value with the
possibly updated environment. -/
def eval : Nat → Env → LObj → Except Err (Option LObj × Env)
  | 0, _, _ => .error .fuelOut
  | fuel + 1, env, e =>
    match e with
    | .number q => .ok (some (.number q), env)
    | .symbol name =>
      match envLookup env name with
      | some v => .ok (v, env)
      | none => .ok (none, env ++ [(name, none)])
    | .list [] => .ok (none, env)
    | .list (head :: args) =>
      match head with
      | .symbol opName =>
        if opName == "+" then evalAdd (eval fuel) env args
        else if opName == "-" then evalSubtract (eval fuel) env args
        else if opName == "*" then evalMultiply (eval fuel) env args
        else if opName == "/" then evalDivide (eval fuel) env args
        else .error (.unknownOperator opName)
      | _ => .error .ub

/-- The four entries installed by the `interpreter` constructor: each
operator name is bound to a fresh `lisp_symbol` carrying the same name (a
self-referential placeholder, not an executable reduction). -/
def globalEnv : Env :=
  [("+", some (.symbol "+")), ("-", some (.symbol "-")),
   ("*", some (.symbol "*")), ("/", some (.symbol "/"))]

/-- Top-level parse of a whole string, with fuel ample for its length
(the parser consumes one unit of fuel per nesting level only). -/
def parseStr (s : String) : Except Err LObj :=
  match parse (s.length + 1) s.data 0 with
  | .error e => .error e
  | .ok (e, _) => .ok e

/-- Parse then evaluate against the freshly constructed interpreter, as
`main` does; the evaluator consumes one unit of fuel per nesting level, and
the depth of a parsed tree is below the length of its source text. -/
def evalStr (s : String) : Except Err (Option LObj) :=
  match parseStr s with
  | .error e => .error e
  | .ok e =>
    match eval (s.length + 1) globalEnv e with
    | .error e2 => .error e2
    | .ok (v, _) => .ok v

/-- Whether an `Except` result is a success. -/
def isOkE {α : Type} : Except Err α → Bool
  | .ok _ => true
  | .error _ => false

/-- Predicate: `env2` extends `env` by appending entries at the end. -/
def EnvExt (env env2 : Env) : Prop := ∃ ext, env2 = env ++ ext

/-! Helper lemmas. -/

theorem eval_number (fuel : Nat) (env : Env) (q : ℚ) :
    eval (fuel + 1) env (.number q) = .ok (some (.number q), env) := rfl

theorem eval_list_add (fuel : Nat) (env : Env) (args : List LObj) :
    eval (fuel + 1) env (.list (.symbol "+" :: args)) = evalAdd (eval fuel) env args := rfl

theorem eval_list_sub (fuel : Nat) (env : Env) (args : List LObj) :
    eval (fuel + 1) env (.list (.symbol "-" :: args)) = evalSubtract (eval fuel) env args := rfl

theorem eval_list_mul (fuel : Nat) (env : Env) (args : List LObj) :
    eval (fuel + 1) env (.list (.symbol "*" :: args)) = evalMultiply (eval fuel) env args := rfl

theorem eval_list_div (fuel : Nat) (env : Env) (args : List LObj) :
    eval (fuel + 1) env (.list (.symbol "/" :: args)) = evalDivide (eval fuel) env args := rfl

theorem subLoop_map_number (evalF : Env → LObj → Except Err (Option LObj × Env))
    (hF : ∀ (env : Env) (q : ℚ), evalF env (.number q) = .ok (some (.number q), env)) :
    ∀ (xs : List ℚ) (env : Env) (acc : ℚ),
      subLoop evalF env acc (xs.map LObj.number) = .ok (xs.foldl (· - ·) acc, env) := by
  intro xs
  induction xs with
  | nil => intro env acc; rfl
  | cons x rest ih =>
    intro env acc
    simp only [List.map_cons, subLoop, hF, asNumber, List.foldl_cons]
    exact ih env (acc - x)

theorem divLoop_map_number (evalF : Env → LObj → Except Err (Option LObj × Env))
    (hF : ∀ (env : Env) (q : ℚ), evalF env (.number q) = .ok (some (.number q), env)) :
    ∀ (xs : List ℚ) (env : Env) (acc : ℚ),
      divLoop evalF env acc (xs.map LObj.number) = .ok (xs.foldl (· / ·) acc, env) := by
  intro xs
  induction xs with
  | nil => intro env acc; rfl
  | cons x rest ih =>
    intro env acc
    simp only [List.map_cons, divLoop, hF, asNumber, List.foldl_cons]
    exact ih env (acc / x)

/-! Claim theorems. -/

/-- Claim C1 (confirmed): a subtraction form with a single operand
evaluates to that operand's value unchanged (the fold over an empty tail),
not its negation, and with more operands it is the left fold of
subtraction starting from the first operand's value; in particular
`(- 10 3 2)` gives `5` and `(- 7)` gives `7`. -/
theorem subtract_single_and_left_fold :
    (∀ (fuel : Nat) (env : Env) (x : ℚ) (xs : List ℚ),
        eval (fuel + 2) env (.list (.symbol "-" :: .number x :: xs.map .number))
          = .ok (some (.number (xs.foldl (· - ·) x)), env))
    ∧ evalStr "(- 10 3 2)" = .ok (some (.number 5))
    ∧ evalStr "(- 7)" = .ok (some (.number 7)) := by
  refine ⟨?_, by with_unfolding_all rfl, by with_unfolding_all rfl⟩
  intro fuel env x xs
  show eval (fuel + 1 + 1) env (.list (.symbol "-" :: .number x :: xs.map .number)) = _
  rw [eval_list_sub]
  simp only [evalSubtract, eval_number, asNumber,
    subLoop_map_number (eval (fuel + 1)) (eval_number fuel) xs env x]

/-- Claim C2 (corrected): there is no divisor check anywhere in
`evalDivide`; a division form whose operands all evaluate to numbers
always folds the division through and returns a `Number` successfully,
even when a divisor is `0` — no `DivisionByZero` error exists.  (In this
`ℚ` model the fold value at a zero divisor is `0`; IEEE doubles would give
an infinity.  The verified content is the absence of any error path.) -/
theorem divide_left_fold_no_zero_check :
    (∀ (fuel : Nat) (env : Env) (x : ℚ) (xs : List ℚ),
        eval (fuel + 2) env (.list (.symbol "/" :: .number x :: xs.map .number))
          = .ok (some (.number (xs.foldl (· / ·) x)), env))
    ∧ isOkE (evalStr "(/ 8 0)") = true := by
  refine ⟨?_, by with_unfolding_all rfl⟩
  intro fuel env x xs
  show eval (fuel + 1 + 1) env (.list (.symbol "/" :: .number x :: xs.map .number)) = _
  rw [eval_list_div]
  simp only [evalDivide, eval_number, asNumber,
    divLoop_map_number (eval (fuel + 1)) (eval_number fuel) xs env x]

/-- Claim C2 counterexample: evaluating `(/ 8 0)` does not fail at all —
it succeeds (the C++ code performs the IEEE division and returns the
resulting number), refuting "evaluation fails with a DivisionByZero
error". -/
theorem div_by_zero_returns_ok : isOkE (evalStr "(/ 8 0)") = true := by
  with_unfolding_all rfl

/-- Claim C8 (confirmed): evaluating the empty list returns the defined
"no value" result (the null `lisp_object_ptr`, here `none`) without any
error, and `evaluate(parse("()"))` is exactly that. -/
theorem empty_list_evaluates_to_no_value :
    (∀ (fuel : Nat) (env : Env), eval (fuel + 1) env (.list []) = .ok (none, env))
    ∧ evalStr "()" = .ok none :=
  ⟨fun _ _ => rfl, rfl⟩

/-- Claim C10 (confirmed): each of the four registered operator names
evaluates, as a bare symbol, to the registry's self-referential
placeholder symbol of the same name (not a number), leaving the registry
unchanged; and such a placeholder is unusable as a numeric operand — the
operand cast is undefined behaviour, as `(+ +)` shows. -/
theorem operator_symbols_evaluate_to_placeholders :
    eval 1 globalEnv (.symbol "+") = .ok (some (.symbol "+"), globalEnv)
    ∧ eval 1 globalEnv (.symbol "-") = .ok (some (.symbol "-"), globalEnv)
    ∧ eval 1 globalEnv (.symbol "*") = .ok (some (.symbol "*"), globalEnv)
    ∧ eval 1 globalEnv (.symbol "/") = .ok (some (.symbol "/"), globalEnv)
    ∧ asNumber (some (.symbol "+")) = .error .ub
    ∧ evalStr "(+ +)" = .error .ub :=
  ⟨rfl, rfl, rfl, rfl, rfl, rfl⟩

/-- Claim C3 (corrected, amended form): evaluating a Symbol whose name is
not registered does not fail; `globalEnv[name]` default-inserts a null
entry and `eval` silently returns that null "no value", also mutating the
registry. -/
theorem unbound_symbol_inserts_null :
    ∀ (fuel : Nat) (env : Env) (name : String), envLookup env name = none →
      eval (fuel + 1) env (.symbol name) = .ok (none, env ++ [(name, none)]) := by
  intro fuel env name h
  simp only [eval, h]

/-- Claim C3 witness: instantiating the amended statement at the
unregistered name `bar` in the initial registry. -/
theorem unbound_symbol_inserts_null_witness :
    envLookup globalEnv "bar" = none
    ∧ eval 1 globalEnv (.symbol "bar") = .ok (none, globalEnv ++ [("bar", none)]) :=
  ⟨rfl, unbound_symbol_inserts_null 0 globalEnv "bar" rfl⟩

/-- Claim C3 counterexample: evaluating the unregistered bare symbol `foo`
succeeds with the empty/null value (it does not fail with any error),
refuting "fails with an UnboundSymbol error; it never silently returns an
empty/null value". -/
theorem unbound_symbol_silent_null :
    eval 1 globalEnv (.symbol "foo") = .ok (none, globalEnv ++ [("foo", none)]) := rfl

/-- Claim C4 (corrected, amended form): `(+)` yields `Number 0` and `(*)`
yields `Number 1`, but zero-operand `(-)` and `(/)` read `args[0]` of an
empty vector — undefined behaviour (`Err.ub`), not a defined ArityError
(no such error exists in the code). -/
theorem zero_operand_operator_results :
    evalStr "(+)" = .ok (some (.number 0))
    ∧ evalStr "(*)" = .ok (some (.number 1))
    ∧ evalStr "(-)" = .error .ub
    ∧ evalStr "(/)" = .error .ub :=
  ⟨rfl, rfl, rfl, rfl⟩

/-- Claim C4 counterexample: zero-operand `(-)` and `(/)` end in the
undefined-behaviour marker (out-of-bounds `args[0]`), which is not a
defined error raised by the program, refuting "fail with an ArityError (a
defined error, not undefined behaviour)". -/
theorem zero_operand_minus_divide_ub :
    evalStr "(-)" = .error .ub ∧ evalStr "(/)" = .error .ub ∧ Err.ub ≠ Err.unexpectedEndOfInput :=
  ⟨rfl, rfl, by decide⟩

/-- Claim C5 (code bug): the number branch is selected for `-5` (the
lookahead sees `-` followed by a digit), but the lexeme loop only accepts
digits and dots, so the `-` is never consumed: the lexeme is empty and
`std::stod` throws `std::invalid_argument` instead of producing
`Number (-5)`.  A plain digit-led literal like `5` parses fine, which
isolates the slip to the unconsumed sign. -/
theorem negative_literal_parse_throws :
    parseStr "-5" = .error .invalidArgument
    ∧ parseStr "5" = .ok (.number 5)
    ∧ stod [] = .error .invalidArgument :=
  ⟨rfl, by with_unfolding_all rfl, rfl⟩

/-- Claim C6 (corrected, amended form): a malformed numeric lexeme is
consumed whole by the Reader but converted by `std::stod`'s
longest-valid-prefix rule, silently truncating: `7.5.2` parses as
`Number 7.5`, and the truncated value flows on into evaluation, e.g.
`(+ 1.2.3 4)` evaluates to `Number 5.2`. -/
theorem malformed_number_stod_longest_valid :
    parseStr "7.5.2" = .ok (.number (15/2 : ℚ))
    ∧ evalStr "(+ 1.2.3 4)" = .ok (some (.number (26/5 : ℚ))) := by
  exact ⟨by with_unfolding_all rfl, by with_unfolding_all rfl⟩

/-- Claim C6 counterexample: parsing the malformed lexeme `1.2.3` does not
fail — it succeeds with `Number 1.2` (the longest valid prefix), refuting
"parsing fails with a propagated numeric-parse error; the Reader never
silently truncates". -/
theorem malformed_number_silently_truncated :
    parseStr "1.2.3" = .ok (.number (6/5 : ℚ)) := by
  with_unfolding_all rfl

theorem currentChar_ne_of_not_mem {input : List Char} {idx : Nat} {c : Char}
    (hno : c ∉ input) (hc : c ≠ Char.ofNat 0) : currentChar input idx ≠ c := by
  intro h
  by_cases hlt : idx < input.length
  · rw [currentChar, List.getD_eq_getElem _ _ hlt] at h
    exact hno (h ▸ List.getElem_mem hlt)
  · rw [currentChar, List.getD_eq_default _ _ (Nat.not_lt.mp hlt)] at h
    exact hc h.symm

/-- If the buffer holds no closing parenthesis at all, the list-reading
loop can never return successfully: its only success exit consumes a
`)`. -/
theorem parseList_never_ok (input : List Char) (hno : ')' ∉ input) :
    ∀ (lfuel : Nat) (childP : Nat → Except Err (LObj × Nat)) (idx : Nat)
      (acc : List LObj) (r : List LObj × Nat),
      parseList childP input lfuel idx acc ≠ .ok r := by
  intro lfuel
  induction lfuel with
  | zero => intro childP idx acc r h; exact Except.noConfusion h
  | succ lf ih =>
    intro childP idx acc r h
    simp only [parseList] at h
    split at h
    · next hc =>
      exact currentChar_ne_of_not_mem hno (by decide) (eq_of_beq hc)
    · split at h
      · exact Except.noConfusion h
      · exact ih _ _ _ _ h

/-- Claim C7 (corrected, amended form): an input whose first
non-whitespace character opens a list and which contains no closing
parenthesis can never be parsed to a node — for any fuel the parser does
not succeed — and on well-formed-token inputs such as `(+ 1 2` the
failure is specifically the `Unexpected end of input` exception raised by
the recursive child parse's end-of-input check. -/
theorem unterminated_list_never_returns_node :
    (∀ (s : List Char), ')' ∉ s → currentChar s (skipWhitespace s 0) = '(' →
      ∀ (fuel : Nat) (r : LObj × Nat), parse fuel s 0 ≠ .ok r)
    ∧ parseStr "(+ 1 2" = .error .unexpectedEndOfInput := by
  refine ⟨?_, rfl⟩
  intro s hno hopen fuel r h
  cases fuel with
  | zero => exact Except.noConfusion h
  | succ f =>
    simp only [parse] at h
    split at h
    · exact Except.noConfusion h
    · split at h
      · split at h
        · exact Except.noConfusion h
        · next heq => exact parseList_never_ok s hno _ _ _ _ _ heq
      · next hc => exact hc (by simp [hopen])

/-- Claim C7 witness: the amended statement applied to the concrete
unterminated input `(+ 1 2`. -/
theorem unterminated_list_never_returns_node_witness :
    ')' ∉ ("(+ 1 2".data) ∧ parse 7 ("(+ 1 2".data) 0 ≠ .ok (.list [], 7) :=
  ⟨by decide,
   unterminated_list_never_returns_node.1 ("(+ 1 2".data) (by decide) (by decide) 7 (.list [], 7)⟩

/-- Claim C7 counterexample: the unterminated list `(-5` is an input that
opens a list and is exhausted before any `)`, yet parsing fails with the
numeric-lexeme `std::invalid_argument` failure, not with
`UnexpectedEndOfInput` — refuting the claim that every such input fails
with an UnexpectedEndOfInput error. -/
theorem unterminated_list_non_eoi_error :
    parseStr "(-5" = .error .invalidArgument
    ∧ Err.invalidArgument ≠ Err.unexpectedEndOfInput :=
  ⟨rfl, by decide⟩

theorem envExt_refl (env : Env) : EnvExt env env := ⟨[], (List.append_nil env).symm⟩

theorem envExt_trans {e1 e2 e3 : Env} (h12 : EnvExt e1 e2) (h23 : EnvExt e2 e3) :
    EnvExt e1 e3 := by
  obtain ⟨a, ha⟩ := h12
  obtain ⟨b, hb⟩ := h23
  exact ⟨a ++ b, by rw [hb, ha, List.append_assoc]⟩

theorem envLookup_append {env : Env} {k : String} {v : Option LObj}
    (ext : Env) (h : envLookup env k = some v) : envLookup (env ++ ext) k = some v := by
  induction env with
  | nil => exact Option.noConfusion h
  | cons p rest ih =>
    obtain ⟨pk, pv⟩ := p
    simp only [envLookup, List.cons_append] at h ⊢
    split at h
    · next hp => simp [hp, h]
    · next hp => simp only [if_neg hp]; exact ih h

theorem addLoop_envExt (evalF : Env → LObj → Except Err (Option LObj × Env))
    (hF : ∀ (env : Env) (e : LObj) (r : Option LObj × Env),
        evalF env e = .ok r → EnvExt env r.2) :
    ∀ (args : List LObj) (env : Env) (acc : ℚ) (r : ℚ × Env),
      addLoop evalF env acc args = .ok r → EnvExt env r.2 := by
  intro args
  induction args with
  | nil => intro env acc r h; cases h; exact envExt_refl env
  | cons a rest ih =>
    intro env acc r h
    simp only [addLoop] at h
    split at h
    · exact Except.noConfusion h
    · next v env2 heval =>
      split at h
      · exact Except.noConfusion h
      · exact envExt_trans (hF env a (v, env2) heval) (ih env2 _ r h)

theorem subLoop_envExt (evalF : Env → LObj → Except Err (Option LObj × Env))
    (hF : ∀ (env : Env) (e : LObj) (r : Option LObj × Env),
        evalF env e = .ok r → EnvExt env r.2) :
    ∀ (args : List LObj) (env : Env) (acc : ℚ) (r : ℚ × Env),
      subLoop evalF env acc args = .ok r → EnvExt env r.2 := by
  intro args
  induction args with
  | nil => intro env acc r h; cases h; exact envExt_refl env
  | cons a rest ih =>
    intro env acc r h
    simp only [subLoop] at h
    split at h
    · exact Except.noConfusion h
    · next v env2 heval =>
      split at h
      · exact Except.noConfusion h
      · exact envExt_trans (hF env a (v, env2) heval) (ih env2 _ r h)

theorem mulLoop_envExt (evalF : Env → LObj → Except Err (Option LObj × Env))
    (hF : ∀ (env : Env) (e : LObj) (r : Option LObj × Env),
        evalF env e = .ok r → EnvExt env r.2) :
    ∀ (args : List LObj) (env : Env) (acc : ℚ) (r : ℚ × Env),
      mulLoop evalF env acc args = .ok r → EnvExt env r.2 := by
  intro args
  induction args with
  | nil => intro env acc r h; cases h; exact envExt_refl env
  | cons a rest ih =>
    intro env acc r h
    simp only [mulLoop] at h
    split at h
    · exact Except.noConfusion h
    · next v env2 heval =>
      split at h
      · exact Except.noConfusion h
      · exact envExt_trans (hF env a (v, env2) heval) (ih env2 _ r h)

theorem divLoop_envExt (evalF : Env → LObj → Except Err (Option LObj × Env))
    (hF : ∀ (env : Env) (e : LObj) (r : Option LObj × Env),
        evalF env e = .ok r → EnvExt env r.2) :
    ∀ (args : List LObj) (env : Env) (acc : ℚ) (r : ℚ × Env),
      divLoop evalF env acc args = .ok r → EnvExt env r.2 := by
  intro args
  induction args with
  | nil => intro env acc r h; cases h; exact envExt_refl env
  | cons a rest ih =>
    intro env acc r h
    simp only [divLoop] at h
    split at h
    · exact Except.noConfusion h
    · next v env2 heval =>
      split at h
      · exact Except.noConfusion h
      · exact envExt_trans (hF env a (v, env2) heval) (ih env2 _ r h)

/-- A successful evaluation only ever appends entries to the environment
(through the insert-on-miss of `globalEnv[name]`); it never removes or
overwrites one. -/
theorem eval_envExt :
    ∀ (fuel : Nat) (env : Env) (e : LObj) (r : Option LObj × Env),
      eval fuel env e = .ok r → EnvExt env r.2 := by
  intro fuel
  induction fuel with
  | zero => intro env e r h; exact Except.noConfusion h
  | succ f ih =>
    intro env e r h
    cases e with
    | number q => cases h; exact envExt_refl env
    | symbol name =>
      simp only [eval] at h
      split at h
      · cases h; exact envExt_refl env
      · cases h; exact ⟨[(name, none)], rfl⟩
    | list elems =>
      cases elems with
      | nil => cases h; exact envExt_refl env
      | cons head args =>
        cases head with
        | number q => exact Except.noConfusion h
        | list l => exact Except.noConfusion h
        | symbol opName =>
          simp only [eval] at h
          split at h
          · -- "+"
            simp only [evalAdd] at h
            split at h
            · exact Except.noConfusion h
            · next s env2 heq => cases h; exact addLoop_envExt (eval f) ih args env 0 (s, env2) heq
          · split at h
            · -- "-"
              simp only [evalSubtract] at h
              split at h
              · exact Except.noConfusion h
              · next a rest =>
                split at h
                · exact Except.noConfusion h
                · next v env2 heval =>
                  split at h
                  · exact Except.noConfusion h
                  · split at h
                    · exact Except.noConfusion h
                    · next rr env3 hloop =>
                      cases h
                      exact envExt_trans (ih env a (v, env2) heval)
                        (subLoop_envExt (eval f) ih rest env2 _ (rr, env3) hloop)
            · split at h
              · -- "*"
                simp only [evalMultiply] at h
                split at h
                · exact Except.noConfusion h
                · next s env2 heq =>
                  cases h; exact mulLoop_envExt (eval f) ih args env 1 (s, env2) heq
              · split at h
                · -- "/"
                  simp only [evalDivide] at h
                  split at h
                  · exact Except.noConfusion h
                  · next a rest =>
                    split at h
                    · exact Except.noConfusion h
                    · next v env2 heval =>
                      split at h
                      · exact Except.noConfusion h
                      · split at h
                        · exact Except.noConfusion h
                        · next rr env3 hloop =>
                          cases h
                          exact envExt_trans (ih env a (v, env2) heval)
                            (divLoop_envExt (eval f) ih rest env2 _ (rr, env3) hloop)
                · exact Except.noConfusion h

/-- Claim C9 (corrected, amended form): the registry is not read-only, but
it is append-only — any entry present before an evaluation is still
present, unchanged, afterwards.  Growth does occur: looking up a symbol
absent from the registry inserts a null placeholder for it (see the
counterexample). -/
theorem registry_entries_preserved :
    ∀ (fuel : Nat) (env : Env) (e : LObj) (r : Option LObj × Env)
      (k : String) (v : Option LObj),
      eval fuel env e = .ok r → envLookup env k = some v →
        envLookup r.2 k = some v := by
  intro fuel env e r k v h hk
  obtain ⟨ext, hext⟩ := eval_envExt fuel env e r h
  rw [hext]
  exact envLookup_append ext hk

/-- Claim C9 witness: after evaluating the unregistered symbol `qux` the
pre-existing `+` entry is still bound to its placeholder. -/
theorem registry_entries_preserved_witness :
    envLookup (globalEnv ++ [("qux", none)]) "+" = some (some (.symbol "+")) :=
  registry_entries_preserved 1 globalEnv (.symbol "qux")
    (none, globalEnv ++ [("qux", none)]) "+" (some (.symbol "+")) rfl rfl

/-- Claim C9 counterexample: evaluating the bare unregistered symbol `qux`
succeeds and leaves the registry with five entries — the four operators
plus the freshly inserted `qux` placeholder — refuting "running evaluate
leaves the registry mapping unchanged (exactly the four entries),
including when the expression contains symbols not present in the
registry". -/
theorem registry_grows_on_unbound_lookup :
    eval 1 globalEnv (.symbol "qux") = .ok (none, globalEnv ++ [("qux", none)])
    ∧ (globalEnv ++ [("qux", none)]).length = 5
    ∧ globalEnv.length = 4 :=
  ⟨rfl, rfl, rfl⟩

end Lisp
